import Mathlib

/-!
Shallow embedding of the answer-evaluation and progression engine of the
speak-learn-english repository.

Embedded source:
* `compareTwoStrings` — the Dice bigram-overlap coefficient from the
  string-similarity npm package (the sole dependency of the normalizer);
  it strips all whitespace, returns 1 for identical strings (including two
  empty strings), 0 when either string is shorter than two characters, and
  otherwise twice the bigram multiset intersection divided by the total
  number of bigrams.  Scores are modelled as rationals.
* `findBestMatch` — src/utils/speechRecognition.ts: lowercases and trims
  the utterance and every option, keeps the strictly best-scoring option
  (ties keep the earlier option), and answers only when the best score
  reaches the 0.7 threshold.
* The quiz session state machine — `checkAnswer`, `nextQuestion`, `endQuiz`
  and the component state of src/src/pages/QuizPage.tsx.  The React
  useState variables (currentQuestionIndex, score, mistakes) become fields
  of a `Session` value updated by explicit state passing, the terminal
  outcome of `endQuiz` becomes the `result` field, and the two
  progress-table update calls issued by `endQuiz` are recorded in the
  `emitted` field as `ProgressWrite` intents.

One timing detail of the source is load-bearing and modelled explicitly:
`checkAnswer` runs `setScore(score + 1)` and then schedules
`setTimeout(() => nextQuestion(), 2000)`.  The `nextQuestion`/`endQuiz`
instances invoked by that timeout are the ones of the render in which the
answer was submitted, and they close over that render's `score` — the
value BEFORE the increment (`setScore` re-renders with the new value but
does not mutate the old closure).  So when a quiz completes via a correct
answer on the last question, `endQuiz(false)` computes `finalScore` from
the stale, pre-increment score.  `nextQuestion`/`endQuiz` therefore take
the closure-captured score (`closureScore`) as an explicit argument here:
the session state carries the post-`setScore` score, while the scheduled
continuation reads `closureScore`.  The scheduled call's other state reads
(`currentQuestionIndex`, `questions`) are not updated by the `checkAnswer`
call that schedules it, so for them closure and state agree; `mistakes` is
updated on the wrong-answer path but never read by `nextQuestion` or
`endQuiz`.
-/

namespace SpeakLearn

/-- Characters removed by the `replace(/\s+/g, ...)` normalization inside
`compareTwoStrings` (string-similarity package). -/
def jsStripWhitespace (s : List Char) : List Char :=
  s.filter (fun c => !c.isWhitespace)

/-- Lowercasing, character by character, as `toLowerCase()` does.  (Lean's
`String.toLower` is defined by well-founded recursion on byte positions and
is not kernel-computable; mapping `Char.toLower` over the character list is
the same function.) -/
def jsToLower (s : List Char) : List Char :=
  s.map Char.toLower

/-- Whitespace removal from both ends, as `trim()` does. -/
def jsTrim (s : List Char) : List Char :=
  ((s.dropWhile Char.isWhitespace).reverse.dropWhile Char.isWhitespace).reverse

/-- The `.toLowerCase().trim()` normalization applied by `findBestMatch` to
the utterance and to every option. -/
def normalize (s : String) : String :=
  ⟨jsTrim (jsToLower s.data)⟩

/-- All adjacent pairs of characters, as `substring(i, i + 2)` produces them
for `i < length - 1`. -/
def bigrams : List Char → List (Char × Char)
  | a :: b :: rest => (a, b) :: bigrams (b :: rest)
  | _ => []

/-- Size of the multiset intersection of two bigram lists: the
string-similarity loop walks the second list and consumes one matching
occurrence from the first list per hit. -/
def intersectionSize : List (Char × Char) → List (Char × Char) → Nat
  | _, [] => 0
  | avail, x :: rest =>
    if x ∈ avail then 1 + intersectionSize (avail.erase x) rest
    else intersectionSize avail rest

/-- The `compareTwoStrings` function of the string-similarity npm package
(the repository's only similarity primitive), with its floating-point
score modelled as a rational. -/
def compareTwoStrings (first second : String) : ℚ :=
  let f := jsStripWhitespace first.data
  let s := jsStripWhitespace second.data
  if f = s then 1
  else if f.length < 2 ∨ s.length < 2 then 0
  else
    (2 * (intersectionSize (bigrams f) (bigrams s) : ℚ)) /
      ((f.length : ℚ) + (s.length : ℚ) - 2)

/-- Result record of `findBestMatch`; the source field `match` is a Lean
keyword and is rendered as `matchText`. -/
structure MatchResult where
  matchText : String
  score : ℚ
deriving DecidableEq

/-- The `findBestMatch` function of src/utils/speechRecognition.ts. -/
def findBestMatch (spokenText : String) (options : List String) : Option MatchResult :=
  let normalizedSpoken := normalize spokenText
  let best := options.foldl
    (fun bestMatch option =>
      let normalizedOption := normalize option
      let similarity := compareTwoStrings normalizedSpoken normalizedOption
      if bestMatch.2 < similarity then (option, similarity) else bestMatch)
    (("", (0 : ℚ)) : String × ℚ)
  if (7 : ℚ) / 10 ≤ best.2 then some { matchText := best.1, score := best.2 } else none

/-- Similarity actually computed by `findBestMatch` for one utterance/option
pair: both sides lowercased and trimmed before scoring. -/
def simOf (spokenText option : String) : ℚ :=
  compareTwoStrings (normalize spokenText) (normalize option)

/-- Specification-side restatement of `findBestMatch`, written from the
spec's words: pick the option attaining the maximum similarity, ties broken
by first occurrence in option order (`List.argmax` keeps the earlier of two
equally scored elements), and answer only when that maximum reaches 0.7. -/
def findBestMatchSpec (spokenText : String) (options : List String) : Option MatchResult :=
  match List.argmax (simOf spokenText) options with
  | none => none
  | some o =>
    if (7 : ℚ) / 10 ≤ simOf spokenText o then
      some { matchText := o, score := simOf spokenText o }
    else none

/-- Question row as loaded by `fetchQuizData` (QuizPage.tsx, lines 13-19). -/
structure Question where
  id : String
  question_text : String
  image_url : String
  options : List String
  correct_answer : String
deriving DecidableEq

/-- Level row (QuizPage.tsx, lines 21-26) together with its question list
as fetched by `fetchQuizData`. -/
structure Level where
  id : String
  level_number : Nat
  title : String
  image_url : String
  questions : List Question
deriving DecidableEq

/-- Terminal outcome of a session: `endQuiz(false)` is completion,
`endQuiz(true)` is failure by three mistakes. -/
inductive Outcome
  | Completed
  | FailedByMistakes
deriving DecidableEq

/-- One update emitted against the progress table by `endQuiz`
(QuizPage.tsx, lines 185-205).  The unlock write for the next level carries
no high_score field. -/
structure ProgressWrite where
  level_number : Nat
  status : String
  high_score : Option Nat
deriving DecidableEq

/-- Session state of one level attempt: the useState variables of QuizPage
(lines 35-37) plus the terminal result (the `failedDueToMistakes` decision
and final score fixed by `endQuiz`) and the progress updates emitted so
far. -/
structure Session where
  levelNumber : Nat
  questions : List Question
  currentQuestionIndex : Nat
  score : Nat
  mistakes : Nat
  result : Option (Outcome × Nat)
  emitted : List ProgressWrite
deriving DecidableEq

/-- `endQuiz` (QuizPage.tsx, lines 181-217): fixes the final score (zero on
failure), records the terminal outcome, and emits the progress update for
the current level plus — only on success — the unlock update for the next
level ordinal.  `closureScore` is the `score` the function closes over: the
value of the render whose `checkAnswer`/`nextQuestion` scheduled or called
it, which on the correct-answer path is the pre-increment score (see the
header comment on the stale closure). -/
def endQuiz (s : Session) (closureScore : Nat) (failedDueToMistakes : Bool) : Session :=
  let finalScore := if failedDueToMistakes then 0 else closureScore
  { s with
    result := some
      (if failedDueToMistakes then Outcome.FailedByMistakes else Outcome.Completed,
        finalScore)
    emitted := s.emitted ++
      { level_number := s.levelNumber
        status := if failedDueToMistakes then ("unlocked") else ("completed")
        high_score := some finalScore } ::
      (if failedDueToMistakes then [] else
        [{ level_number := s.levelNumber + 1
           status := ("unlocked")
           high_score := none }]) }

/-- `nextQuestion` (QuizPage.tsx, lines 170-179): advance the index when a
question remains, otherwise end the quiz successfully.  `closureScore` is
the `score` captured by the render that scheduled this call; it is passed
through to `endQuiz`, whose `finalScore` reads it. -/
def nextQuestion (s : Session) (closureScore : Nat) : Session :=
  if s.currentQuestionIndex + 1 < s.questions.length then
    { s with currentQuestionIndex := s.currentQuestionIndex + 1 }
  else
    endQuiz s closureScore false

/-- The question currently presented, `questions[currentQuestionIndex]`. -/
def currentQuestion (s : Session) : Option Question :=
  s.questions[s.currentQuestionIndex]?

/-- `checkAnswer` (QuizPage.tsx, lines 146-168) as one submission step.  A
terminal session accepts no further answer (the option buttons stay
disabled once `endQuiz` is reached), and with no current question no answer
can be checked; both cases reject with `none`.  Otherwise the candidate is
compared to the correct answer by exact string equality: a correct answer
runs `setScore(score + 1)` — the session score becomes `s.score + 1` — and
schedules `nextQuestion`, whose closure still reads the pre-increment
`s.score`; a wrong answer increments the mistake count and either ends the
quiz as failed (third mistake) or moves on, the closure score being the
unchanged `s.score` in both wrong-answer cases. -/
def submitAnswer (s : Session) (selectedAnswer : String) : Option Session :=
  if s.result.isSome then none
  else
    match s.questions[s.currentQuestionIndex]? with
    | none => none
    | some currentQ =>
      if selectedAnswer = currentQ.correct_answer then
        some (nextQuestion { s with score := s.score + 1 } s.score)
      else
        let newMistakes := s.mistakes + 1
        if 3 ≤ newMistakes then
          some (endQuiz { s with mistakes := newMistakes } s.score true)
        else
          some (nextQuestion { s with mistakes := newMistakes } s.score)

/-- Initial session produced for a fetched level: question index 0, score 0,
mistakes 0, not terminal, nothing emitted (QuizPage.tsx, lines 33-43). -/
def start (level : Level) : Session :=
  { levelNumber := level.level_number
    questions := level.questions
    currentQuestionIndex := 0
    score := 0
    mistakes := 0
    result := none
    emitted := [] }

/-- The `outcome()` reading of a session: defined exactly when terminal,
yielding the outcome together with the final score fixed by `endQuiz`. -/
def outcome (s : Session) : Option (Outcome × Nat) :=
  s.result

/-- Submit a whole list of answers in order, failing if any submission is
rejected. -/
def runAnswers : Session → List String → Option Session
  | s, [] => some s
  | s, a :: rest =>
    match submitAnswer s a with
    | none => none
    | some s' => runAnswers s' rest

/-- Session states reachable from `start level` by submitting answers. -/
inductive ReachableFrom (level : Level) : Session → Prop
  | init : ReachableFrom level (start level)
  | step {s s' : Session} {a : String} :
      ReachableFrom level s → submitAnswer s a = some s' → ReachableFrom level s'

/-- Concrete question: correct answer "A". -/
def exQ1 : Question :=
  { id := "q1", question_text := "first", image_url := "", options := ["A", "B"],
    correct_answer := "A" }

/-- Concrete question: correct answer "C". -/
def exQ2 : Question :=
  { id := "q2", question_text := "second", image_url := "", options := ["C", "D"],
    correct_answer := "C" }

/-- Concrete question: correct answer "E". -/
def exQ3 : Question :=
  { id := "q3", question_text := "third", image_url := "", options := ["E", "F"],
    correct_answer := "E" }

/-- Concrete level with one question. -/
def exLevel1 : Level :=
  { id := "L1", level_number := 4, title := "one", image_url := "", questions := [exQ1] }

/-- Concrete level with two questions. -/
def exLevel2 : Level :=
  { id := "L2", level_number := 2, title := "two", image_url := "",
    questions := [exQ1, exQ2] }

/-- Concrete level with three questions. -/
def exLevel3 : Level :=
  { id := "L3", level_number := 1, title := "three", image_url := "",
    questions := [exQ1, exQ2, exQ3] }

/-- Concrete level with no questions. -/
def exLevelEmpty : Level :=
  { id := "L0", level_number := 9, title := "empty", image_url := "", questions := [] }

/-- Session after one wrong answer on the three-question level. -/
def exS1 : Session :=
  { levelNumber := 1, questions := [exQ1, exQ2, exQ3], currentQuestionIndex := 1,
    score := 0, mistakes := 1, result := none, emitted := [] }

/-- Session after two wrong answers on the three-question level. -/
def exS2 : Session :=
  { levelNumber := 1, questions := [exQ1, exQ2, exQ3], currentQuestionIndex := 2,
    score := 0, mistakes := 2, result := none, emitted := [] }

/-- Concrete terminal session: the state after answering the single question
of `exLevel1` correctly.  The score state was incremented to 1, but the
outcome and the persisted high_score carry the stale pre-increment score
0 read by `endQuiz`'s closure. -/
def exTerminalSession : Session :=
  { levelNumber := 4, questions := [exQ1], currentQuestionIndex := 0,
    score := 1, mistakes := 0, result := some (Outcome.Completed, 0),
    emitted :=
      [{ level_number := 4, status := ("completed"), high_score := some 0 },
       { level_number := 5, status := ("unlocked"), high_score := none }] }

/-- Session after three wrong answers on the three-question level. -/
def exS3 : Session :=
  { levelNumber := 1, questions := [exQ1, exQ2, exQ3], currentQuestionIndex := 2,
    score := 0, mistakes := 3, result := some (Outcome.FailedByMistakes, 0),
    emitted := [{ level_number := 1, status := ("unlocked"), high_score := some 0 }] }

/-- Session after one wrong answer on the one-question level: the quiz ends
as completed with the question index still at 0. -/
def exC6 : Session :=
  { levelNumber := 4, questions := [exQ1], currentQuestionIndex := 0,
    score := 0, mistakes := 1, result := some (Outcome.Completed, 0),
    emitted :=
      [{ level_number := 4, status := ("completed"), high_score := some 0 },
       { level_number := 5, status := ("unlocked"), high_score := none }] }

/- Helper lemmas about the state machine. -/

theorem endQuiz_score (s : Session) (c : Nat) (b : Bool) : (endQuiz s c b).score = s.score :=
  rfl

theorem nextQuestion_score (s : Session) (c : Nat) : (nextQuestion s c).score = s.score := by
  unfold nextQuestion
  split <;> rfl

theorem nextQuestion_mistakes (s : Session) (c : Nat) :
    (nextQuestion s c).mistakes = s.mistakes := by
  unfold nextQuestion
  split <;> rfl

theorem endQuiz_result_false (s : Session) (c : Nat) :
    (endQuiz s c false).result = some (Outcome.Completed, c) :=
  rfl

theorem endQuiz_result_true (s : Session) (c : Nat) :
    (endQuiz s c true).result = some (Outcome.FailedByMistakes, 0) :=
  rfl

theorem endQuiz_emitted_false (s : Session) (c : Nat) :
    (endQuiz s c false).emitted = s.emitted ++
      [{ level_number := s.levelNumber, status := ("completed"), high_score := some c },
       { level_number := s.levelNumber + 1, status := ("unlocked"), high_score := none }] :=
  rfl

theorem endQuiz_emitted_true (s : Session) (c : Nat) :
    (endQuiz s c true).emitted = s.emitted ++
      [{ level_number := s.levelNumber, status := ("unlocked"), high_score := some 0 }] :=
  rfl

/-- Case split on what `nextQuestion` does. -/
theorem nextQuestion_spec (s : Session) (c : Nat) :
    (s.currentQuestionIndex + 1 < s.questions.length ∧
      nextQuestion s c = { s with currentQuestionIndex := s.currentQuestionIndex + 1 }) ∨
    (¬ s.currentQuestionIndex + 1 < s.questions.length ∧
      nextQuestion s c = endQuiz s c false) := by
  unfold nextQuestion
  split_ifs with h
  exacts [Or.inl ⟨h, rfl⟩, Or.inr ⟨h, rfl⟩]

/-- Branch lemma: a terminal session rejects every submission. -/
theorem submitAnswer_terminal {s : Session} (a : String) {r : Outcome × Nat}
    (h : s.result = some r) : submitAnswer s a = none := by
  unfold submitAnswer
  simp [h]

/-- Branch lemma: a correct answer increments the score state and moves on,
with the scheduled continuation closing over the pre-increment score. -/
theorem submitAnswer_correct {s : Session} {q : Question} {a : String}
    (hres : s.result = none) (hq : s.questions[s.currentQuestionIndex]? = some q)
    (ha : a = q.correct_answer) :
    submitAnswer s a = some (nextQuestion { s with score := s.score + 1 } s.score) := by
  unfold submitAnswer
  simp [hres, hq, ha]

/-- Branch lemma: a wrong answer below the mistake limit increments the
mistake count and moves on. -/
theorem submitAnswer_wrong_advance {s : Session} {q : Question} {a : String}
    (hres : s.result = none) (hq : s.questions[s.currentQuestionIndex]? = some q)
    (hw : a ≠ q.correct_answer) (hm : s.mistakes + 1 < 3) :
    submitAnswer s a = some (nextQuestion { s with mistakes := s.mistakes + 1 } s.score) := by
  have h3 : ¬ 3 ≤ s.mistakes + 1 := by omega
  unfold submitAnswer
  simp [hres, hq, hw, h3]

/-- Branch lemma: the third wrong answer ends the quiz as failed. -/
theorem submitAnswer_wrong_fail {s : Session} {q : Question} {a : String}
    (hres : s.result = none) (hq : s.questions[s.currentQuestionIndex]? = some q)
    (hw : a ≠ q.correct_answer) (hm : 3 ≤ s.mistakes + 1) :
    submitAnswer s a = some (endQuiz { s with mistakes := s.mistakes + 1 } s.score true) := by
  unfold submitAnswer
  simp [hres, hq, hw, hm]

/-- Inversion: everything a successful submission can have done. -/
theorem submitAnswer_cases {s s' : Session} {a : String}
    (hs : submitAnswer s a = some s') :
    s.result = none ∧ ∃ q, s.questions[s.currentQuestionIndex]? = some q ∧
      ((a = q.correct_answer ∧ s' = nextQuestion { s with score := s.score + 1 } s.score) ∨
       (a ≠ q.correct_answer ∧ 3 ≤ s.mistakes + 1 ∧
         s' = endQuiz { s with mistakes := s.mistakes + 1 } s.score true) ∨
       (a ≠ q.correct_answer ∧ s.mistakes + 1 < 3 ∧
         s' = nextQuestion { s with mistakes := s.mistakes + 1 } s.score)) := by
  have hres : s.result = none := by
    cases hres : s.result with
    | none => rfl
    | some r => rw [submitAnswer_terminal a hres] at hs; exact absurd hs (by simp)
  refine ⟨hres, ?_⟩
  have hq : ∃ q, s.questions[s.currentQuestionIndex]? = some q := by
    cases hq : s.questions[s.currentQuestionIndex]? with
    | some q => exact ⟨q, rfl⟩
    | none =>
      unfold submitAnswer at hs
      rw [hres, hq] at hs
      exact absurd hs (by simp)
  obtain ⟨q, hq⟩ := hq
  refine ⟨q, hq, ?_⟩
  by_cases ha : a = q.correct_answer
  · rw [submitAnswer_correct hres hq ha] at hs
    exact Or.inl ⟨ha, ((Option.some.injEq _ _).mp hs).symm⟩
  · by_cases h3 : 3 ≤ s.mistakes + 1
    · rw [submitAnswer_wrong_fail hres hq ha h3] at hs
      exact Or.inr (Or.inl ⟨ha, h3, ((Option.some.injEq _ _).mp hs).symm⟩)
    · rw [submitAnswer_wrong_advance hres hq ha (by omega)] at hs
      exact Or.inr (Or.inr ⟨ha, by omega, ((Option.some.injEq _ _).mp hs).symm⟩)

/-- C5: a submitAnswer call on an already-terminal session is rejected
deterministically (the step function returns `none`), producing no successor
state, so the session state is left completely unchanged. -/
theorem C5_terminal_submit_rejected (s : Session) (a : String) (r : Outcome × Nat)
    (h : s.result = some r) : submitAnswer s a = none :=
  submitAnswer_terminal a h

theorem C5_witness :
    exTerminalSession.result = some (Outcome.Completed, 0) ∧
    submitAnswer exTerminalSession ("A") = none :=
  ⟨rfl, C5_terminal_submit_rejected exTerminalSession ("A") (Outcome.Completed, 0) rfl⟩

/-- C7: start(level) yields a session at question index 0 with score 0 and
mistakes 0, non-terminal; when the level has zero questions there is no
current question, so no answer can ever be submitted — the session is not
usable. -/
theorem C7_start_initialization (level : Level) :
    (start level).currentQuestionIndex = 0 ∧ (start level).score = 0 ∧
    (start level).mistakes = 0 ∧ (start level).result = none ∧
    (level.questions = [] → ∀ a, submitAnswer (start level) a = none) := by
  refine ⟨rfl, rfl, rfl, rfl, ?_⟩
  intro hq a
  unfold submitAnswer start
  simp [hq]

theorem C7_witness :
    exLevelEmpty.questions = [] ∧ submitAnswer (start exLevelEmpty) ("A") = none :=
  ⟨rfl, (C7_start_initialization exLevelEmpty).2.2.2.2 rfl ("A")⟩

/-- C1: in any run from start(level), a wrong answer submitted while the
mistake count is 2 (the third wrong answer overall) terminates the session
as FailedByMistakes with the outcome score forced to 0, regardless of the
number of questions or of correct answers recorded before. -/
theorem C1_third_mistake_fails (level : Level) (s s' : Session) (a : String)
    (_hr : ReachableFrom level s) (hm : s.mistakes = 2)
    (hw : ∀ q, currentQuestion s = some q → a ≠ q.correct_answer)
    (hs : submitAnswer s a = some s') :
    s'.result = some (Outcome.FailedByMistakes, 0) ∧
    outcome s' = some (Outcome.FailedByMistakes, 0) := by
  obtain ⟨hres, q, hq, hcase⟩ := submitAnswer_cases hs
  have hwq : a ≠ q.correct_answer := hw q hq
  rcases hcase with ⟨hc, _⟩ | ⟨_, _, hEnd⟩ | ⟨_, hlt, _⟩
  · exact absurd hc hwq
  · subst hEnd
    exact ⟨rfl, rfl⟩
  · omega

theorem C1_witness :
    exS2.mistakes = 2 ∧
    exS3.result = some (Outcome.FailedByMistakes, 0) ∧
    outcome exS3 = some (Outcome.FailedByMistakes, 0) :=
  ⟨rfl,
    C1_third_mistake_fails exLevel3 exS2 exS3 ("z")
      (ReachableFrom.step (ReachableFrom.step ReachableFrom.init
        (show submitAnswer (start exLevel3) ("z") = some exS1 by decide))
        (show submitAnswer exS1 ("z") = some exS2 by decide))
      rfl
      (fun q hq => by
        rw [show currentQuestion exS2 = some exQ3 from rfl] at hq
        injection hq with h
        subst h
        decide)
      (by decide)⟩

/-- C8: every session state reachable from start(level) on a level with at
least one question (start fails on a level with zero questions) satisfies,
while non-terminal, that the mistake count never exceeds 3 and the current
question index is strictly below the number of questions. -/
theorem C8_session_invariants (level : Level) (h : level.questions ≠ [])
    (s : Session) (hr : ReachableFrom level s) (hnt : s.result = none) :
    s.mistakes ≤ 3 ∧ s.currentQuestionIndex < s.questions.length := by
  revert hnt
  induction hr with
  | init =>
    intro hnt
    refine ⟨Nat.zero_le 3, ?_⟩
    show 0 < level.questions.length
    exact List.length_pos.mpr h
  | step hr' hs ih =>
    intro hnt
    obtain ⟨hres, q, hq, hcase⟩ := submitAnswer_cases hs
    have ihs := ih hres
    rcases hcase with ⟨_, h'⟩ | ⟨_, _, h'⟩ | ⟨_, hlt, h'⟩ <;> subst h'
    · unfold nextQuestion at hnt ⊢
      split_ifs at hnt ⊢ with hadv
      · simp only at hadv ⊢
        exact ⟨ihs.1, by omega⟩
      · exact absurd hnt (by simp [endQuiz])
    · exact absurd hnt (by simp [endQuiz])
    · unfold nextQuestion at hnt ⊢
      split_ifs at hnt ⊢ with hadv
      · simp only at hadv ⊢
        exact ⟨by omega, by omega⟩
      · exact absurd hnt (by simp [endQuiz])

theorem C8_witness :
    exLevel3.questions ≠ [] ∧ (start exLevel3).result = none ∧
    ((start exLevel3).mistakes ≤ 3 ∧
      (start exLevel3).currentQuestionIndex < (start exLevel3).questions.length) :=
  ⟨by decide, rfl,
    C8_session_invariants exLevel3 (by decide) (start exLevel3) ReachableFrom.init rfl⟩

/-- C4: a submission that makes the session terminal emits exactly the
progress-update intent of `endQuiz` — the current level's record set to
completed (on Completed) or unlocked (on FailedByMistakes) with the outcome
score as high_score, plus an unlock write for level ordinal + 1 exactly
when the outcome is Completed; a submission that keeps the session
non-terminal emits nothing. -/
theorem C4_terminal_progress_writes (s s' : Session) (a : String)
    (hs : submitAnswer s a = some s') :
    (s'.result = none → s'.emitted = s.emitted) ∧
    (∀ n, s'.result = some (Outcome.Completed, n) →
      s'.emitted = s.emitted ++
        [{ level_number := s.levelNumber, status := ("completed"), high_score := some n },
         { level_number := s.levelNumber + 1, status := ("unlocked"), high_score := none }]) ∧
    (∀ n, s'.result = some (Outcome.FailedByMistakes, n) →
      n = 0 ∧
      s'.emitted = s.emitted ++
        [{ level_number := s.levelNumber, status := ("unlocked"), high_score := some n }]) := by
  obtain ⟨hres, q, hq, hcase⟩ := submitAnswer_cases hs
  rcases hcase with ⟨_, h'⟩ | ⟨_, _, h'⟩ | ⟨_, _, h'⟩ <;> subst h'
  · rcases nextQuestion_spec { s with score := s.score + 1 } s.score with
      ⟨hadv, heq⟩ | ⟨hadv, heq⟩ <;> rw [heq]
    · refine ⟨fun _ => rfl, ?_, ?_⟩ <;> intro n hn <;> simp [hres] at hn
    · refine ⟨?_, ?_, ?_⟩
      · intro hn
        rw [endQuiz_result_false] at hn
        exact absurd hn (by simp)
      · intro n hn
        rw [endQuiz_result_false] at hn
        simp only [Option.some.injEq, Prod.mk.injEq, true_and] at hn
        subst hn
        exact endQuiz_emitted_false _ _
      · intro n hn
        rw [endQuiz_result_false] at hn
        simp at hn
  · refine ⟨?_, ?_, ?_⟩
    · intro hn
      rw [endQuiz_result_true] at hn
      exact absurd hn (by simp)
    · intro n hn
      rw [endQuiz_result_true] at hn
      simp at hn
    · intro n hn
      rw [endQuiz_result_true] at hn
      simp only [Option.some.injEq, Prod.mk.injEq, true_and] at hn
      subst hn
      exact ⟨rfl, endQuiz_emitted_true _ _⟩
  · rcases nextQuestion_spec { s with mistakes := s.mistakes + 1 } s.score with
      ⟨hadv, heq⟩ | ⟨hadv, heq⟩ <;> rw [heq]
    · refine ⟨fun _ => rfl, ?_, ?_⟩ <;> intro n hn <;> simp [hres] at hn
    · refine ⟨?_, ?_, ?_⟩
      · intro hn
        rw [endQuiz_result_false] at hn
        exact absurd hn (by simp)
      · intro n hn
        rw [endQuiz_result_false] at hn
        simp only [Option.some.injEq, Prod.mk.injEq, true_and] at hn
        subst hn
        exact endQuiz_emitted_false _ _
      · intro n hn
        rw [endQuiz_result_false] at hn
        simp at hn

theorem C4_witness :
    (exTerminalSession.result = none → exTerminalSession.emitted = (start exLevel1).emitted) ∧
    (∀ n, exTerminalSession.result = some (Outcome.Completed, n) →
      exTerminalSession.emitted = (start exLevel1).emitted ++
        [{ level_number := (start exLevel1).levelNumber, status := ("completed"),
           high_score := some n },
         { level_number := (start exLevel1).levelNumber + 1, status := ("unlocked"),
           high_score := none }]) ∧
    (∀ n, exTerminalSession.result = some (Outcome.FailedByMistakes, n) →
      n = 0 ∧
      exTerminalSession.emitted = (start exLevel1).emitted ++
        [{ level_number := (start exLevel1).levelNumber, status := ("unlocked"),
           high_score := some n }]) :=
  C4_terminal_progress_writes (start exLevel1) exTerminalSession ("A") (by decide)

/-- C6 counterexample: on the last question of a level, a wrong answer whose
resulting mistake count is still below 3 does NOT advance the current
question index by 1 — the session ends as Completed with the index
unchanged.  Concretely, from start of the one-question level `exLevel1`,
the wrong answer "nope" satisfies all the claim's premises (non-terminal
session, incorrect candidate, resulting mistakes 1 < 3) yet the resulting
index is 0, not 1. -/
theorem C6_counterexample_last_question :
    (start exLevel1).result = none ∧
    currentQuestion (start exLevel1) = some exQ1 ∧
    ("nope") ≠ exQ1.correct_answer ∧
    (start exLevel1).mistakes + 1 < 3 ∧
    submitAnswer (start exLevel1) ("nope") = some exC6 ∧
    exC6.currentQuestionIndex = (start exLevel1).currentQuestionIndex ∧
    exC6.currentQuestionIndex ≠ (start exLevel1).currentQuestionIndex + 1 :=
  ⟨rfl, rfl, by decide, by decide, by decide, rfl, by decide⟩

/-- C6 (amended): a submitAnswer with an incorrect candidate on a
non-terminal session, with the resulting mistake count still below 3,
increments mistakes by exactly 1 and leaves the score unchanged; if a
further question remains the current question index advances by 1 and the
session stays non-terminal, otherwise the index is unchanged and the
session terminates as Completed.  In either case the same question is never
re-asked. -/
theorem C6_wrong_below_limit_advances (s : Session) (q : Question) (a : String)
    (hres : s.result = none) (hq : currentQuestion s = some q)
    (hw : a ≠ q.correct_answer) (hm : s.mistakes + 1 < 3) :
    ∃ s', submitAnswer s a = some s' ∧
      s'.mistakes = s.mistakes + 1 ∧ s'.score = s.score ∧
      ((s.currentQuestionIndex + 1 < s.questions.length ∧
          s'.currentQuestionIndex = s.currentQuestionIndex + 1 ∧ s'.result = none) ∨
       (¬ s.currentQuestionIndex + 1 < s.questions.length ∧
          s'.currentQuestionIndex = s.currentQuestionIndex ∧
          s'.result = some (Outcome.Completed, s.score))) := by
  have hq' : s.questions[s.currentQuestionIndex]? = some q := hq
  refine ⟨nextQuestion { s with mistakes := s.mistakes + 1 } s.score,
    submitAnswer_wrong_advance hres hq' hw hm, ?_, ?_, ?_⟩
  · exact nextQuestion_mistakes _ _
  · exact nextQuestion_score _ _
  · rcases nextQuestion_spec { s with mistakes := s.mistakes + 1 } s.score with
      ⟨hadv, heq⟩ | ⟨hadv, heq⟩ <;> rw [heq]
    · exact Or.inl ⟨hadv, rfl, hres⟩
    · exact Or.inr ⟨hadv, rfl, endQuiz_result_false _ _⟩

theorem C6_witness :
    (start exLevel2).result = none ∧
    currentQuestion (start exLevel2) = some exQ1 ∧
    ("nope") ≠ exQ1.correct_answer ∧
    (start exLevel2).mistakes + 1 < 3 ∧
    (∃ s', submitAnswer (start exLevel2) ("nope") = some s' ∧
      s'.mistakes = (start exLevel2).mistakes + 1 ∧ s'.score = (start exLevel2).score ∧
      (((start exLevel2).currentQuestionIndex + 1 < (start exLevel2).questions.length ∧
          s'.currentQuestionIndex = (start exLevel2).currentQuestionIndex + 1 ∧
          s'.result = none) ∨
       (¬ (start exLevel2).currentQuestionIndex + 1 < (start exLevel2).questions.length ∧
          s'.currentQuestionIndex = (start exLevel2).currentQuestionIndex ∧
          s'.result = some (Outcome.Completed, (start exLevel2).score)))) :=
  ⟨rfl, rfl, by decide, by decide,
    C6_wrong_below_limit_advances (start exLevel2) exQ1 ("nope") rfl rfl (by decide) (by decide)⟩

/-- C10: a wrong answer on the last question that leaves the mistake count
below 3 terminates the session as Completed with the accumulated score and
writes the level's progress status as completed (plus the unlock write for
the next ordinal): a session can end Completed with up to 2 mistakes. -/
theorem C10_wrong_last_question_completes (s : Session) (q : Question) (a : String)
    (hres : s.result = none) (hq : currentQuestion s = some q)
    (hlast : s.currentQuestionIndex + 1 = s.questions.length)
    (hw : a ≠ q.correct_answer) (hm : s.mistakes + 1 < 3) :
    ∃ s', submitAnswer s a = some s' ∧
      s'.result = some (Outcome.Completed, s.score) ∧
      s'.score = s.score ∧ s'.mistakes = s.mistakes + 1 ∧ s'.mistakes ≤ 2 ∧
      s'.emitted = s.emitted ++
        [{ level_number := s.levelNumber, status := ("completed"), high_score := some s.score },
         { level_number := s.levelNumber + 1, status := ("unlocked"), high_score := none }] := by
  have hq' : s.questions[s.currentQuestionIndex]? = some q := hq
  have hnadv : ¬ ({ s with mistakes := s.mistakes + 1 } : Session).currentQuestionIndex + 1 <
      ({ s with mistakes := s.mistakes + 1 } : Session).questions.length := by
    simp only
    omega
  have hnq : nextQuestion { s with mistakes := s.mistakes + 1 } s.score =
      endQuiz { s with mistakes := s.mistakes + 1 } s.score false := by
    unfold nextQuestion
    rw [if_neg hnadv]
  refine ⟨endQuiz { s with mistakes := s.mistakes + 1 } s.score false, ?_, ?_, rfl, rfl, ?_, ?_⟩
  · rw [submitAnswer_wrong_advance hres hq' hw hm, hnq]
  · exact endQuiz_result_false _ _
  · show s.mistakes + 1 ≤ 2
    omega
  · exact endQuiz_emitted_false _ _

theorem C10_witness :
    (start exLevel1).result = none ∧
    currentQuestion (start exLevel1) = some exQ1 ∧
    (start exLevel1).currentQuestionIndex + 1 = (start exLevel1).questions.length ∧
    ("B") ≠ exQ1.correct_answer ∧
    (start exLevel1).mistakes + 1 < 3 ∧
    (∃ s', submitAnswer (start exLevel1) ("B") = some s' ∧
      s'.result = some (Outcome.Completed, (start exLevel1).score) ∧
      s'.score = (start exLevel1).score ∧ s'.mistakes = (start exLevel1).mistakes + 1 ∧
      s'.mistakes ≤ 2 ∧
      s'.emitted = (start exLevel1).emitted ++
        [{ level_number := (start exLevel1).levelNumber, status := ("completed"),
           high_score := some (start exLevel1).score },
         { level_number := (start exLevel1).levelNumber + 1, status := ("unlocked"),
           high_score := none }]) :=
  ⟨rfl, rfl, rfl, by decide, by decide,
    C10_wrong_last_question_completes (start exLevel1) exQ1 ("B") rfl rfl rfl
      (by decide) (by decide)⟩

/-- List helper: what `l.drop i = q :: t` says about `l`. -/
theorem drop_eq_cons_facts {α : Type} :
    ∀ (l : List α) (i : Nat) (q : α) (t : List α), l.drop i = q :: t →
      l[i]? = some q ∧ l.drop (i + 1) = t ∧ l.length = i + (t.length + 1) := by
  intro l
  induction l with
  | nil =>
    intro i q t h
    rw [List.drop_nil] at h
    exact absurd h (by simp)
  | cons x xs ih =>
    intro i q t h
    cases i with
    | zero =>
      rw [List.drop_zero] at h
      injection h with h1 h2
      subst h1
      subst h2
      exact ⟨by simp, by simp, by simp⟩
    | succ i' =>
      have h' : xs.drop i' = q :: t := h
      obtain ⟨h1, h2, h3⟩ := ih i' q t h'
      refine ⟨by simpa using h1, h2, ?_⟩
      simp only [List.length_cons, h3]
      omega

/-- Submitting the correct answers of all remaining questions, in order,
ends the session as Completed: the score state gains one point per
question, but the recorded outcome carries the stale closure score of the
final step — one less than the final score state. -/
theorem runAnswers_all_correct :
    ∀ (rest : List Question) (s : Session), s.result = none →
      s.questions.drop s.currentQuestionIndex = rest → rest ≠ [] →
      ∃ s', runAnswers s (rest.map Question.correct_answer) = some s' ∧
        s'.score = s.score + rest.length ∧
        s'.result = some (Outcome.Completed, s.score + (rest.length - 1)) := by
  intro rest
  induction rest with
  | nil =>
    intro s _ _ hne
    exact absurd rfl hne
  | cons q rest ih =>
    intro s hres hdrop _
    obtain ⟨hq, hdrop', hlen⟩ := drop_eq_cons_facts _ _ _ _ hdrop
    have hsub := submitAnswer_correct hres hq rfl
    cases rest with
    | nil =>
      rw [List.length_nil] at hlen
      have hnadv : ¬ ({ s with score := s.score + 1 } : Session).currentQuestionIndex + 1 <
          ({ s with score := s.score + 1 } : Session).questions.length := by
        simp only
        omega
      have hnq : nextQuestion { s with score := s.score + 1 } s.score =
          endQuiz { s with score := s.score + 1 } s.score false := by
        unfold nextQuestion
        rw [if_neg hnadv]
      refine ⟨endQuiz { s with score := s.score + 1 } s.score false, ?_, rfl, ?_⟩
      · show runAnswers s [q.correct_answer] = _
        unfold runAnswers
        rw [hsub, hnq]
        rfl
      · exact endQuiz_result_false _ _
    | cons q' rest' =>
      have hadv : ({ s with score := s.score + 1 } : Session).currentQuestionIndex + 1 <
          ({ s with score := s.score + 1 } : Session).questions.length := by
        simp only [List.length_cons] at hlen ⊢
        omega
      have hnq : nextQuestion { s with score := s.score + 1 } s.score =
          { s with score := s.score + 1,
                   currentQuestionIndex := s.currentQuestionIndex + 1 } := by
        unfold nextQuestion
        rw [if_pos hadv]
      obtain ⟨s', h1, h2, h3⟩ := ih
        { s with score := s.score + 1, currentQuestionIndex := s.currentQuestionIndex + 1 }
        hres hdrop' (by simp)
      refine ⟨s', ?_, ?_, ?_⟩
      · show runAnswers s (q.correct_answer :: (q' :: rest').map Question.correct_answer) = _
        unfold runAnswers
        rw [hsub, hnq]
        exact h1
      · rw [h2]
        simp only [List.length_cons]
        omega
      · rw [h3]
        simp only [Option.some.injEq, Prod.mk.injEq, List.length_cons]
        exact ⟨trivial, by omega⟩

/-- C2 (evaluation of the code at the claim): the claim demands final score
N on an all-correct run, and each correct submission does increment the
score state by exactly 1, ending it at N — but the recorded outcome and
the persisted score are N - 1, because the `endQuiz` reached through the
timeout scheduled by the final correct answer closes over the render's
pre-increment score. -/
theorem C2_all_correct_stale_outcome (level : Level) (h : level.questions ≠ []) :
    (∃ s, runAnswers (start level) (level.questions.map Question.correct_answer) = some s ∧
      s.score = level.questions.length ∧
      s.result = some (Outcome.Completed, level.questions.length - 1) ∧
      outcome s = some (Outcome.Completed, level.questions.length - 1)) ∧
    (∀ (s : Session) (q : Question) (a : String),
      s.result = none → currentQuestion s = some q → a = q.correct_answer →
      ∀ s', submitAnswer s a = some s' → s'.score = s.score + 1) := by
  constructor
  · obtain ⟨s', h1, h2, h3⟩ :=
      runAnswers_all_correct level.questions (start level) rfl (by simp [start]) h
    rw [show (start level).score = 0 from rfl, Nat.zero_add] at h2 h3
    exact ⟨s', h1, h2, h3, h3⟩
  · intro s q a hres hq ha s' hs
    have hq' : s.questions[s.currentQuestionIndex]? = some q := hq
    rw [submitAnswer_correct hres hq' ha] at hs
    have := (Option.some.injEq _ _).mp hs
    rw [← this, nextQuestion_score]

theorem C2_witness :
    exLevel2.questions ≠ [] ∧
    ((∃ s, runAnswers (start exLevel2) (exLevel2.questions.map Question.correct_answer) = some s ∧
      s.score = exLevel2.questions.length ∧
      s.result = some (Outcome.Completed, exLevel2.questions.length - 1) ∧
      outcome s = some (Outcome.Completed, exLevel2.questions.length - 1)) ∧
    (∀ (s : Session) (q : Question) (a : String),
      s.result = none → currentQuestion s = some q → a = q.correct_answer →
      ∀ s', submitAnswer s a = some s' → s'.score = s.score + 1)) :=
  ⟨by decide, C2_all_correct_stale_outcome exLevel2 (by decide)⟩

/-- The fold of `findBestMatch`, restated through `simOf`. -/
theorem findBestMatch_eq_fold (u : String) (opts : List String) :
    findBestMatch u opts =
      (let best := opts.foldl
        (fun b o => if b.2 < simOf u o then (o, simOf u o) else b)
        (("", (0 : ℚ)) : String × ℚ)
       if (7 : ℚ) / 10 ≤ best.2 then some { matchText := best.1, score := best.2 } else none) :=
  rfl

/-- The strictly-improving fold of `findBestMatch` computes the first
maximizer (in the sense of `List.argmax`) whenever that maximizer beats the
accumulator, and keeps the accumulator otherwise. -/
theorem foldBest_argmax (u : String) :
    ∀ (opts : List String) (t : String) (v : ℚ),
      opts.foldl (fun b o => if b.2 < simOf u o then (o, simOf u o) else b) (t, v) =
        (match List.argmax (simOf u) opts with
         | none => (t, v)
         | some o => if v < simOf u o then (o, simOf u o) else (t, v)) := by
  intro opts
  induction opts with
  | nil =>
    intro t v
    simp [List.argmax_nil]
  | cons a l ih =>
    intro t v
    rw [List.foldl_cons, List.argmax_cons]
    by_cases h1 : v < simOf u a
    · rw [if_pos h1, ih a (simOf u a)]
      cases h2 : List.argmax (simOf u) l with
      | none => simp [h1]
      | some c =>
        by_cases h3 : simOf u a < simOf u c
        · simp [h3, lt_trans h1 h3]
        · simp [h3, h1]
    · rw [if_neg h1, ih t v]
      cases h2 : List.argmax (simOf u) l with
      | none => simp [h1]
      | some c =>
        by_cases h3 : simOf u a < simOf u c
        · simp [h3]
        · have hvc : ¬ v < simOf u c :=
            not_lt.mpr (le_trans (le_of_not_lt h3) (le_of_not_lt h1))
          simp [h3, h1, hvc]

/-- C3: `findBestMatch` lowercases and trims the utterance and each option,
scores every pair with the bigram-overlap coefficient, and returns exactly
the option attaining the maximum similarity — ties broken by first
occurrence in option order — if and only if that maximum reaches 0.7;
otherwise it returns no match.  Stated as equality with the spec-side
`findBestMatchSpec` built from `List.argmax`. -/
theorem C3_findBestMatch_refines_spec (u : String) (opts : List String) :
    findBestMatch u opts = findBestMatchSpec u opts := by
  rw [findBestMatch_eq_fold]
  simp only
  rw [foldBest_argmax u opts ("") 0]
  unfold findBestMatchSpec
  cases h2 : List.argmax (simOf u) opts with
  | none =>
    simp only
    rw [if_neg (by norm_num : ¬ (7 : ℚ) / 10 ≤ 0)]
  | some o =>
    simp only
    by_cases hth : (7 : ℚ) / 10 ≤ simOf u o
    · have h0 : (0 : ℚ) < simOf u o := lt_of_lt_of_le (by norm_num) hth
      rw [if_pos h0, if_pos hth]
    · by_cases h0 : (0 : ℚ) < simOf u o
      · rw [if_pos h0, if_neg hth]
      · rw [if_neg h0]
        simp only
        rw [if_neg (by norm_num : ¬ (7 : ℚ) / 10 ≤ 0), if_neg hth]

/-- Against any option that still has a character after whitespace
stripping, the empty utterance scores 0. -/
theorem compareTwoStrings_zero_left (t : String) (h : jsStripWhitespace t.data ≠ []) :
    compareTwoStrings ("") t = 0 := by
  have hne : ¬ jsStripWhitespace (String.data ("")) = jsStripWhitespace t.data :=
    fun e => h e.symm
  simp only [compareTwoStrings]
  rw [if_neg hne]
  rw [if_pos (Or.inl (show (jsStripWhitespace (String.data (""))).length < 2 by decide))]

unseal Rat.add Rat.mul Rat.inv Rat.sub in
/-- C9 counterexample: the claim fails on an options list containing an
option that normalizes to the empty string.  `compareTwoStrings` returns 1
for two (whitespace-stripped) identical strings, including two empty ones,
so the empty utterance matches the empty option with score 1 ≥ 0.7 and
`findBestMatch` does not return no-match. -/
theorem C9_counterexample_empty_option :
    findBestMatch ("") [""] = some { matchText := "", score := 1 } ∧
    findBestMatch ("") [""] ≠ none :=
  ⟨by decide, by decide⟩

/-- C9 (amended): for every options list in which every option still
contains a character after lowercasing, trimming and whitespace stripping,
`findBestMatch` applied to the empty utterance returns no-match. -/
theorem C9_empty_utterance_no_match (opts : List String)
    (h : ∀ o ∈ opts, jsStripWhitespace (normalize o).data ≠ []) :
    findBestMatch ("") opts = none := by
  rw [findBestMatch_eq_fold]
  simp only
  rw [foldBest_argmax ("") opts ("") 0]
  cases h2 : List.argmax (simOf ("")) opts with
  | none =>
    simp only
    rw [if_neg (by norm_num : ¬ (7 : ℚ) / 10 ≤ 0)]
  | some o =>
    have ho : o ∈ opts := List.argmax_mem (Option.mem_def.mpr h2)
    have h0 : simOf ("") o = 0 := by
      show compareTwoStrings (normalize ("")) (normalize o) = 0
      rw [show normalize ("") = ("") from rfl]
      exact compareTwoStrings_zero_left (normalize o) (h o ho)
    norm_num [h0]

theorem C9_witness :
    (∀ o ∈ (["Menu"] : List String), jsStripWhitespace (normalize o).data ≠ []) ∧
    findBestMatch ("") ["Menu"] = none :=
  ⟨by decide, C9_empty_utterance_no_match ["Menu"] (by decide)⟩

end SpeakLearn
